import Mathlib

/-!
Verification development for the bullet-mcp analysis engine.

The repository ships the engine's type declarations (`src/schema.ts`, the
`types.ts` half of that file) and its full vitest suite, but the engine
implementation itself (`src/server.ts`) is not among the provided sources.
The executable model below is therefore built from the specification's
description of the engine (input validation, the seven rule evaluators,
context-fit assessment, score aggregation, strict-mode promotion and the
section aggregator), with the type shapes taken from `types.ts`.
Every definition whose body is not fixed by the type declarations carries a
doc comment starting `Modelled from the spec:`.
-/

/-- `importance` hint of a bullet item (`types.ts`, `Importance`). -/
inductive Importance where
  | high
  | medium
  | low
deriving DecidableEq, Repr

/-- Usage context (`types.ts`, `Context`). -/
inductive Context where
  | document
  | presentation
  | reference
deriving DecidableEq, Repr

/-- Severity of a validation issue (`types.ts`, `Severity`). -/
inductive Severity where
  | error
  | warning
  | suggestion
deriving DecidableEq, Repr

/-- Letter grade (`types.ts`, `Grade`). -/
inductive Grade where
  | A
  | B
  | C
  | D
  | F
deriving DecidableEq, Repr

/-- Context-fit assessment (`types.ts`, `ContextFit`). -/
inductive ContextFit where
  | excellent
  | good
  | poor
deriving DecidableEq, Repr

/-- A bullet item: text, optional importance hint, nested children
(`types.ts`, `BulletItem`); a `null`/absent `children` value is normalised
to the empty list at this boundary. -/
inductive BulletItem where
  | node (text : String) (importance : Option Importance) (children : List BulletItem)
deriving Repr

/-- Text of a bullet item. -/
def textOf : BulletItem → String
  | .node t _ _ => t

/-- Importance hint of a bullet item. -/
def importanceOf : BulletItem → Option Importance
  | .node _ imp _ => imp

/-- Children of a bullet item. -/
def childrenOf : BulletItem → List BulletItem
  | .node _ _ cs => cs

/-- A section of a long document (`types.ts`, `BulletSection`). -/
structure BulletSection where
  title : String
  items : List BulletItem
  context : Option Context
deriving Repr

/-- Raw input to the tool (`types.ts`, `BulletInput`): optional flat `items`,
optional `sections`, optional global `context`. -/
structure RawInput where
  items : Option (List BulletItem)
  sections : Option (List BulletSection)
  context : Option Context
deriving Repr

/-- A single validation issue (`types.ts`, `ValidationIssue`). -/
structure ValidationIssue where
  rule : String
  severity : Severity
  message : String
  item_index : Option Nat
  suggestion : Option String
  research_basis : Option String
deriving DecidableEq, Repr

/-- Score of a single rule (`types.ts`, `RuleScore`). -/
structure RuleScore where
  rule : String
  max_points : Nat
  earned_points : Nat
  issues : List ValidationIssue
deriving DecidableEq, Repr

/-- Per-section score breakdown (`types.ts`, `SectionScore`). -/
structure SectionScore where
  title : String
  score : Nat
  grade : Grade
  item_count : Nat
  issues : List ValidationIssue
  context : Context
deriving DecidableEq, Repr

/-- Full analysis result (`types.ts`, `BulletAnalysis`). -/
structure BulletAnalysis where
  overall_score : Nat
  grade : Grade
  scores : List RuleScore
  errors : List ValidationIssue
  warnings : List ValidationIssue
  suggestions : List ValidationIssue
  summary : String
  top_improvements : List String
  item_count : Nat
  max_depth : Nat
  avg_line_length : Nat
  context_fit : ContextFit
  context_feedback : Option String
  section_scores : Option (List SectionScore)
deriving DecidableEq, Repr

/-- Validation configuration (`types.ts`, `ValidationConfig`). -/
structure ValidationConfig where
  strictMode : Bool
  enableResearchCitations : Bool
deriving DecidableEq, Repr

/-- Display configuration (`types.ts`, `DisplayConfig`); irrelevant to the core. -/
structure DisplayConfig where
  colorOutput : Bool
deriving DecidableEq, Repr

/-- Full configuration (`types.ts`, `BulletConfig`). -/
structure BulletConfig where
  validation : ValidationConfig
  display : DisplayConfig
deriving DecidableEq, Repr

/-- Build a configuration from the three boolean toggles. -/
def mkConfig (strict cite color : Bool) : BulletConfig :=
  ⟨⟨strict, cite⟩, ⟨color⟩⟩

/- ## Character-list text helpers -/

/-- Split a character list into whitespace-separated words (accumulator holds
the current word reversed). -/
def splitWordsAux : List Char → List Char → List (List Char)
  | [], acc => if acc.isEmpty then [] else [acc.reverse]
  | c :: cs, acc =>
    if c.isWhitespace then
      if acc.isEmpty then splitWordsAux cs [] else acc.reverse :: splitWordsAux cs []
    else splitWordsAux cs (c :: acc)

/-- Whitespace-separated words of a string, as character lists. -/
def wordsOf (s : String) : List (List Char) :=
  splitWordsAux s.data []

/-- Lower-case a word. -/
def lowerWord (w : List Char) : List Char :=
  w.map Char.toLower

/-- Is `pat` a prefix of `l`? -/
def isPrefixL : List Char → List Char → Bool
  | [], _ => true
  | _ :: _, [] => false
  | a :: as, b :: bs => a == b && isPrefixL as bs

/-- Does `l` contain `pat` as a contiguous sublist? -/
def containsL (l pat : List Char) : Bool :=
  match l with
  | [] => isPrefixL pat []
  | _ :: t => isPrefixL pat l || containsL t pat

/-- Does string `s` contain string `pat` as a substring? -/
def strContains (s pat : String) : Bool :=
  containsL s.data pat.data

/-- Character count of a string. -/
def charCount (s : String) : Nat :=
  s.data.length

/- ## Depth and item validity (spec §4.1, §9: recursive traversal) -/

mutual

/-- Nesting depth of one item: 1 plus the depth of its children. -/
def itemDepth : BulletItem → Nat
  | .node _ _ cs => 1 + itemsDepth cs

/-- Maximum nesting depth over a list of items (0 for the empty list). -/
def itemsDepth : List BulletItem → Nat
  | [] => 0
  | c :: cs => max (itemDepth c) (itemsDepth cs)

end

mutual

/-- Modelled from the spec: §4.1 check 4 — an item is valid when its text is
non-empty and not whitespace-only, recursively through `children`
(validator internals are in the missing `server.ts`). -/
def validItem : BulletItem → Bool
  | .node t _ cs => !(t.data.all Char.isWhitespace) && validItems cs

/-- All items of a list are valid. -/
def validItems : List BulletItem → Bool
  | [] => true
  | c :: cs => validItem c && validItems cs

end

/-- Modelled from the spec: §4.1 check 3 — every section needs a non-empty
title and non-empty, valid items (validator internals are in the missing
`server.ts`). -/
def validSection (sec : BulletSection) : Bool :=
  !(sec.title.data.all Char.isWhitespace) && !sec.items.isEmpty && validItems sec.items

/-- All sections of a list are valid. -/
def validSections : List BulletSection → Bool
  | [] => true
  | s :: ss => validSection s && validSections ss

/- ## Scoring arithmetic -/

/-- Round-half-up division of naturals: the nearest integer to `a / b`. -/
def roundDiv (a b : Nat) : Nat :=
  (2 * a + b) / (2 * b)

/-- Modelled from the spec: §4.4 — percentage score from earned and maximum
points, rounded to an integer and clamped to `[0, 100]` (aggregator is in the
missing `server.ts`). -/
def scoreFrom (earned maxPts : Nat) : Nat :=
  min 100 (roundDiv (100 * earned) maxPts)

/-- Modelled from the spec: §4.4 — letter grade by inclusive lower-edge
banding: A ≥ 90, B ≥ 80, C ≥ 70, D ≥ 60, F below (grader is in the missing
`server.ts`). -/
def gradeOf (score : Nat) : Grade :=
  if 90 ≤ score then .A
  else if 80 ≤ score then .B
  else if 70 ≤ score then .C
  else if 60 ≤ score then .D
  else .F

/-- Total earned points of a list of rule scores. -/
def sumEarned (l : List RuleScore) : Nat :=
  (l.map (·.earned_points)).sum

/-- Total maximum points of a list of rule scores. -/
def sumMax (l : List RuleScore) : Nat :=
  (l.map (·.max_points)).sum

/- ## Rule evaluators (spec §4.2; rule internals are in the missing `server.ts`) -/

/-- Research citation for the list-length rule (README research table). -/
def millerBasis : String :=
  "Miller (1956), Cowan (2001): working memory holds 3-4 chunks"

/-- Research citation for the hierarchy rule (README research table). -/
def kigerBasis : String :=
  "Kiger (1984), Nielsen: 2-level structures are fastest to navigate"

/-- Research citation for the line-length rule (README research table). -/
def lineBasis : String :=
  "Typography research: 45-75 characters per line is optimal"

/-- Research citation for the serial-position rule (README research table). -/
def ebbinghausBasis : String :=
  "Ebbinghaus (1885): U-shaped retention curve favors first and last positions"

/-- Research citation for the parallel-structure rule (README research table). -/
def frazierBasis : String :=
  "Frazier et al. (1984): consistent grammar enables faster scanning"

/-- Research citation for the first-words rule (README research table). -/
def nielsenBasis : String :=
  "Nielsen eye-tracking: the first two words drive scanning decisions"

/-- Modelled from the spec: §4.2 LIST_LENGTH point schedule — no deduction in
[3,7], partial deduction for 1-2 and 8-9 items, full deduction (20) at 10+. -/
def listLengthDeduction (n : Nat) : Nat :=
  if 3 ≤ n ∧ n ≤ 7 then 0
  else if n ≤ 2 then 5
  else if n ≤ 9 then 8
  else 20

/-- Modelled from the spec: §4.2 LIST_LENGTH issue schedule — one suggestion
for 1-2 items, one warning for 8-9, one error for 10+, none in [3,7]. -/
def listLengthIssues (n : Nat) : List ValidationIssue :=
  if 3 ≤ n ∧ n ≤ 7 then []
  else if n ≤ 2 then
    [⟨"LIST_LENGTH", .suggestion,
      "List has very few items; it may be too sparse to stand alone",
      none, some "Consider adding detail or combining with a related point",
      some millerBasis⟩]
  else if n ≤ 9 then
    [⟨"LIST_LENGTH", .warning,
      "List exceeds the recommended maximum of 7 items",
      none, some "Split the list or group related items into sections",
      some millerBasis⟩]
  else
    [⟨"LIST_LENGTH", .error,
      "List has 10 or more items, far exceeding working memory limits",
      none, some "Break the list into sections of 3-7 items each",
      some millerBasis⟩]

/-- Modelled from the spec: the LIST_LENGTH rule evaluator (max 20 points). -/
def listLengthRule (items : List BulletItem) : RuleScore :=
  { rule := "LIST_LENGTH"
    max_points := 20
    earned_points := 20 - min (listLengthDeduction items.length) 20
    issues := listLengthIssues items.length }

/-- Modelled from the spec: §4.2 HIERARCHY point schedule — no deduction up to
depth 2, partial deduction at depth 3, full deduction (15) at depth 4+. -/
def hierarchyDeduction (d : Nat) : Nat :=
  if d ≤ 2 then 0
  else if d = 3 then 7
  else 15

/-- Modelled from the spec: §4.2 HIERARCHY issue schedule — one warning at
depth 3, one error at depth 4+, none up to depth 2. -/
def hierarchyIssues (d : Nat) : List ValidationIssue :=
  if d ≤ 2 then []
  else if d = 3 then
    [⟨"HIERARCHY", .warning,
      "Nesting reaches 3 levels; 2 levels or fewer scan faster",
      none, some "Flatten the deepest sub-bullets into their parents",
      some kigerBasis⟩]
  else
    [⟨"HIERARCHY", .error,
      "Nesting reaches 4 or more levels, which severely hurts comprehension",
      none, some "Restructure the content to at most 2 levels of nesting",
      some kigerBasis⟩]

/-- Modelled from the spec: the HIERARCHY rule evaluator (max 15 points). -/
def hierarchyRule (items : List BulletItem) : RuleScore :=
  { rule := "HIERARCHY"
    max_points := 15
    earned_points := 15 - min (hierarchyDeduction (itemsDepth items)) 15
    issues := hierarchyIssues (itemsDepth items) }

/-- Modelled from the spec: §4.2 LINE_LENGTH per-item issue — a suggestion
below 40 characters, a warning above 80, nothing in between. -/
def lineIssueFor (i : Nat) (s : String) : Option ValidationIssue :=
  if charCount s < 40 then
    some ⟨"LINE_LENGTH", .suggestion,
      "Line is shorter than 40 characters; it may lack useful detail",
      some i, some "Expand the point toward the 45-75 character sweet spot",
      some lineBasis⟩
  else if 80 < charCount s then
    some ⟨"LINE_LENGTH", .warning,
      "Line exceeds 80 characters, which hurts scanning",
      some i, some "Trim the point toward the 45-75 character sweet spot",
      some lineBasis⟩
  else none

/-- Modelled from the spec: per-item LINE_LENGTH deduction matching
`lineIssueFor`. -/
def lineDeductionFor (s : String) : Nat :=
  if charCount s < 40 then 2
  else if 80 < charCount s then 3
  else 0

/-- LINE_LENGTH issues of a text list, indexed from `k`. -/
def lineIssuesAux (k : Nat) : List String → List ValidationIssue
  | [] => []
  | s :: rest =>
    match lineIssueFor k s with
    | some iss => iss :: lineIssuesAux (k + 1) rest
    | none => lineIssuesAux (k + 1) rest

/-- Modelled from the spec: the LINE_LENGTH rule evaluator (max 15 points);
per-item deductions accumulate but are capped at the rule's maximum. -/
def lineLengthRule (items : List BulletItem) : RuleScore :=
  { rule := "LINE_LENGTH"
    max_points := 15
    earned_points := 15 - min ((items.map (fun it => lineDeductionFor (textOf it))).sum) 15
    issues := lineIssuesAux 0 (items.map textOf) }

/-- Modelled from the spec: §4.2 SERIAL_POSITION — one warning per
high-importance item that sits in a middle position. -/
def serialIssues (n : Nat) : Nat → List BulletItem → List ValidationIssue
  | _, [] => []
  | i, it :: rest =>
    if importanceOf it == some Importance.high && 0 < i && i + 1 < n then
      ⟨"SERIAL_POSITION", .warning,
        "High-importance item sits in the recall valley (a middle position)",
        some i, some "Move the critical item to the first or last position",
        some ebbinghausBasis⟩ :: serialIssues n (i + 1) rest
    else serialIssues n (i + 1) rest

/-- Modelled from the spec: the SERIAL_POSITION rule evaluator (max 10 points
in this model; the spec fixes no maximum for it). -/
def serialPositionRule (items : List BulletItem) : RuleScore :=
  { rule := "SERIAL_POSITION"
    max_points := 10
    earned_points := 10 - min (2 * (serialIssues items.length 0 items).length) 10
    issues := serialIssues items.length 0 items }

/-- Grammatical pattern of an item's leading words (spec §4.2 STRUCTURE). -/
inductive PatternKind where
  | imperative
  | gerund
  | nounPhrase
  | other
deriving DecidableEq, Repr

/-- Modelled from the spec: regex-style classification of an item's leading
word into imperative verb, gerund, noun phrase, or other. -/
def classifyText (s : String) : PatternKind :=
  match wordsOf s with
  | [] => .other
  | w :: _ =>
    let lw := lowerWord w
    if isPrefixL ['g', 'n', 'i'] lw.reverse && 4 < lw.length then .gerund
    else if lw == ['t', 'h', 'e'] || lw == ['a'] || lw == ['a', 'n'] ||
        lw == ['t', 'h', 'i', 's'] || lw == ['t', 'h', 'a', 't'] ||
        lw == ['i', 't'] then .nounPhrase
    else .imperative

/-- Number of texts classified as pattern `p`. -/
def countPattern (pats : List PatternKind) (p : PatternKind) : Nat :=
  (pats.filter (· == p)).length

/-- Dominant classification of a text list (most frequent pattern). -/
def dominantPattern (pats : List PatternKind) : PatternKind :=
  [PatternKind.gerund, PatternKind.nounPhrase, PatternKind.other].foldl
    (fun best p => if countPattern pats best < countPattern pats p then p else best)
    PatternKind.imperative

/-- STRUCTURE issues of a pattern list, indexed from `k`: one warning per item
deviating from the dominant pattern. -/
def structureIssuesAux (dom : PatternKind) (k : Nat) : List PatternKind → List ValidationIssue
  | [] => []
  | p :: rest =>
    if p == dom then structureIssuesAux dom (k + 1) rest
    else
      ⟨"STRUCTURE", .warning,
        "Item breaks the dominant grammatical pattern of the list",
        some k, some "Rewrite the item to match the dominant grammatical form",
        some frazierBasis⟩ :: structureIssuesAux dom (k + 1) rest

/-- Modelled from the spec: STRUCTURE issues — single-item lists are exempt. -/
def structureIssues (items : List BulletItem) : List ValidationIssue :=
  if items.length ≤ 1 then []
  else
    let pats := items.map (fun it => classifyText (textOf it))
    structureIssuesAux (dominantPattern pats) 0 pats

/-- Modelled from the spec: the STRUCTURE rule evaluator (max 20 points). -/
def structureRule (items : List BulletItem) : RuleScore :=
  { rule := "STRUCTURE"
    max_points := 20
    earned_points := 20 - min (5 * (structureIssues items).length) 20
    issues := structureIssues items }

/-- Case-insensitive key of an item's first two words (spec §4.2 FIRST_WORDS). -/
def firstTwoKey (s : String) : List (List Char) :=
  ((wordsOf s).take 2).map lowerWord

/-- Indices whose first-two-words key already occurred earlier in the list. -/
def dupIndices (keys : List (List (List Char))) : List Nat :=
  (List.range keys.length).filter (fun i => decide (keys.getD i [] ∈ keys.take i))

/-- Modelled from the spec: the FIRST_WORDS rule evaluator (max 10 points) —
one warning per item repeating an earlier item's first two words,
compared case-insensitively. -/
def firstWordsRule (items : List BulletItem) : RuleScore :=
  { rule := "FIRST_WORDS"
    max_points := 10
    earned_points :=
      10 - min (3 * (dupIndices (items.map (fun it => firstTwoKey (textOf it)))).length) 10
    issues :=
      (dupIndices (items.map (fun it => firstTwoKey (textOf it)))).map (fun i =>
        ⟨"FIRST_WORDS", .warning,
          "Item repeats the first two words of an earlier item",
          some i, some "Vary the opening words so every item scans uniquely",
          some nielsenBasis⟩) }

/-- Does the string end in terminal punctuation? -/
def endsPunct (s : String) : Bool :=
  match s.data.reverse with
  | [] => false
  | c :: _ => c == '.' || c == '!' || c == '?'

/-- Does the string start with an upper-case character? -/
def startsUpper (s : String) : Bool :=
  match s.data with
  | [] => false
  | c :: _ => c.isUpper

/-- Modelled from the spec: §4.2 FORMATTING — terminal punctuation and leading
capitalization consistency are checked independently; each inconsistency adds
one suggestion whose message names "punctuation" or "capitalization". -/
def formattingIssues (texts : List String) : List ValidationIssue :=
  (if (texts.map endsPunct).all (· == true) || (texts.map endsPunct).all (· == false) then []
   else
     [⟨"FORMATTING", .suggestion,
       "Inconsistent terminal punctuation across items",
       none, some "End every item with punctuation, or none of them",
       none⟩]) ++
  (if (texts.map startsUpper).all (· == true) || (texts.map startsUpper).all (· == false) then []
   else
     [⟨"FORMATTING", .suggestion,
       "Inconsistent leading capitalization across items",
       none, some "Capitalize the first word of every item consistently",
       none⟩])

/-- Modelled from the spec: the FORMATTING rule evaluator (max 10 points in
this model; the spec fixes no maximum for it). -/
def formattingRule (items : List BulletItem) : RuleScore :=
  { rule := "FORMATTING"
    max_points := 10
    earned_points := 10 - min (2 * (formattingIssues (items.map textOf)).length) 10
    issues := formattingIssues (items.map textOf) }

/-- Modelled from the spec: §4.2 — the fixed registry of the seven rule
evaluators, applied in order to one list of items. -/
def ruleScoresFor (items : List BulletItem) : List RuleScore :=
  [listLengthRule items, hierarchyRule items, lineLengthRule items,
   serialPositionRule items, structureRule items, firstWordsRule items,
   formattingRule items]

/- ## Context-fit evaluation (spec §4.3) -/

/-- Modelled from the spec: §4.3 — `document` with an item count in the
recommended range is `excellent`; `presentation` is always `poor` with
feedback mentioning that visuals may be more persuasive; `reference` is
`good` by default (evaluator is in the missing `server.ts`). -/
def assessContext (ctx : Context) (count : Nat) : ContextFit × Option String :=
  match ctx with
  | .document =>
    if 3 ≤ count ∧ count ≤ 7 then
      (.excellent, none)
    else
      (.good, some "Consider splitting or expanding toward 3-7 items for scanning")
  | .presentation =>
    (.poor, some "For presentations, visuals may be more persuasive than bullet lists")
  | .reference =>
    (.good, some "Reference lists optimize for quick lookup")

/- ## Input validation (spec §4.1) -/

/-- A validated, typed input: either a flat item list or a section list, each
with the resolved global context. -/
inductive ValidInput where
  | flat (items : List BulletItem) (ctx : Context)
  | sectioned (secs : List BulletSection) (ctx : Context)

/-- Modelled from the spec: §4.1 — exactly one of `items`/`sections` must be
present and non-empty ("Cannot use both `items` and `sections`" when both
appear), sections need non-empty titles and items, and every item needs
non-empty text; the first violation aborts with a single terminal error
(validator is in the missing `server.ts`). -/
def validateInput (r : RawInput) : Except String ValidInput :=
  match r.items, r.sections with
  | some _, some _ => .error "Cannot use both `items` and `sections`"
  | none, none => .error "Must provide either `items` or `sections`"
  | some its, none =>
    if its.isEmpty then .error "`items` must be a non-empty array"
    else if validItems its then .ok (.flat its (r.context.getD .document))
    else .error "Each bullet item must have non-empty text"
  | none, some secs =>
    if secs.isEmpty then .error "`sections` must be a non-empty array"
    else if validSections secs then .ok (.sectioned secs (r.context.getD .document))
    else .error "Each section must have a non-empty title and non-empty items"

/- ## Aggregation (spec §4.4, §4.5) -/

/-- Strip the research citation from an issue (spec §4.4,
`enableResearchCitations = false`). -/
def stripIssue (i : ValidationIssue) : ValidationIssue :=
  { i with research_basis := none }

/-- Strip research citations from a rule score's issues. -/
def stripScore (s : RuleScore) : RuleScore :=
  { s with issues := s.issues.map stripIssue }

/-- Tag an issue's message with its section title (spec §4.5: every sectioned
issue message is prefixed with `[<section title>]`). -/
def tagIssue (title : String) (i : ValidationIssue) : ValidationIssue :=
  { i with message := "[" ++ title ++ "] " ++ i.message }

/-- Tag all issues of a rule score with a section title. -/
def tagScore (title : String) (s : RuleScore) : RuleScore :=
  { s with issues := s.issues.map (tagIssue title) }

/-- Rule scores of one item list after the citation toggle and optional
section-title tagging. -/
def processedScores (items : List BulletItem) (title : Option String) (cite : Bool) :
    List RuleScore :=
  let base := ruleScoresFor items
  let base := if cite then base else base.map stripScore
  match title with
  | none => base
  | some t => base.map (tagScore t)

/-- All issues of a list of rule scores, in rule order. -/
def issuesOf (l : List RuleScore) : List ValidationIssue :=
  (l.map (·.issues)).flatten

/-- Modelled from the spec: §4.4 strict mode — a `warning` is promoted to
`error` before partitioning; other severities are unchanged. -/
def promoteIssue (i : ValidationIssue) : ValidationIssue :=
  if i.severity = .warning then { i with severity := .error } else i

/-- Modelled from the spec: §4.4 — the point value of an issue's originating
rule, used to break ties inside a severity class. -/
def rulePoints (rule : String) : Nat :=
  if rule == "LIST_LENGTH" || rule == "STRUCTURE" then 20
  else if rule == "HIERARCHY" || rule == "LINE_LENGTH" then 15
  else 10

/-- Issues of one severity class, ordered by their originating rule's point
value, descending. -/
def issuesBySeverity (issues : List ValidationIssue) (sev : Severity) :
    List ValidationIssue :=
  ([20, 15, 10].map (fun p =>
    issues.filter (fun i => i.severity == sev && rulePoints i.rule == p))).flatten

/-- Modelled from the spec: §4.4 — at most 3 improvement strings, errors
before warnings before suggestions with ties inside a severity class broken
by the originating rule's point value (descending), rendered from each
issue's `suggestion` field or a default. -/
def topImprovements (issues : List ValidationIssue) : List String :=
  (issuesBySeverity issues .error ++ issuesBySeverity issues .warning ++
   issuesBySeverity issues .suggestion).take 3
    |>.map (fun i => i.suggestion.getD ("Review the " ++ i.rule ++ " guidance"))

/-- Modelled from the spec: §4.4 — a short templated summary reflecting the
grade band and whether any error-severity issue exists. -/
def flatSummary (g : Grade) (hasErrors : Bool) : String :=
  (match g with
   | .A => "Excellent bullet list following evidence-based best practices."
   | .B => "Good bullet list with minor room for improvement."
   | .C => "Fair bullet list; several guidelines are not met."
   | .D => "Weak bullet list; most guidelines are not met."
   | .F => "Poor bullet list; restructure it against the guidelines.") ++
  (if hasErrors then " Critical issues need attention." else "")

/-- Modelled from the spec: §4.5 — the sectioned summary explicitly mentions
"sections". -/
def sectionedSummary (g : Grade) (n : Nat) : String :=
  "Analyzed " ++ Nat.repr n ++ " sections with overall grade " ++
  (match g with
   | .A => "A" | .B => "B" | .C => "C" | .D => "D" | .F => "F") ++ "."

/-- Average character count of a text list, rounded. -/
def avgLineLength (texts : List String) : Nat :=
  roundDiv ((texts.map charCount).sum) texts.length

/-- Config-independent core of a flat or sectioned analysis, before the
strict-mode bucket partitioning. -/
structure CoreOutcome where
  scores : List RuleScore
  issues : List ValidationIssue
  overall : Nat
  grade : Grade
  summary : String
  top : List String
  item_count : Nat
  max_depth : Nat
  avg_line : Nat
  fit : ContextFit
  feedback : Option String
  sscores : Option (List SectionScore)

/-- Modelled from the spec: §4.5 — score breakdown of one section under its
effective context: the single-list aggregation of its rule scores, with every
issue message tagged by the section title. -/
def sectionScoreOf (sec : BulletSection) (ctx : Context) (cite : Bool) : SectionScore :=
  let ps := processedScores sec.items (some sec.title) cite
  { title := sec.title
    score := scoreFrom (sumEarned ps) (sumMax ps)
    grade := gradeOf (scoreFrom (sumEarned ps) (sumMax ps))
    item_count := sec.items.length
    issues := issuesOf ps
    context := sec.context.getD ctx }

/-- Modelled from the spec: §4.2-§4.4 — the flat single-list pipeline:
rule evaluation, score aggregation, grading, context fit. -/
def flatCore (items : List BulletItem) (ctx : Context) (cite : Bool) : CoreOutcome :=
  let scores := processedScores items none cite
  let s := scoreFrom (sumEarned scores) (sumMax scores)
  let iss := issuesOf scores
  { scores := scores
    issues := iss
    overall := s
    grade := gradeOf s
    summary := flatSummary (gradeOf s) (iss.any (fun i => i.severity == .error))
    top := topImprovements iss
    item_count := items.length
    max_depth := itemsDepth items
    avg_line := avgLineLength (items.map textOf)
    fit := (assessContext ctx items.length).1
    feedback := (assessContext ctx items.length).2
    sscores := none }

/-- Modelled from the spec: §4.5 — the section aggregator: one single-list
pipeline per section under its effective context, document-level score as the
arithmetic mean of section scores, total item count as the sum of section
item counts, document-level context fit from the global context only. -/
def sectionedCore (secs : List BulletSection) (ctx : Context) (cite : Bool) : CoreOutcome :=
  let perSection := secs.map (fun sec => processedScores sec.items (some sec.title) cite)
  let sscores := secs.map (fun sec => sectionScoreOf sec ctx cite)
  let scores := perSection.flatten
  let iss := issuesOf scores
  let totalItems := (secs.map (fun sec => sec.items.length)).sum
  let s := roundDiv ((sscores.map (·.score)).sum) secs.length
  { scores := scores
    issues := iss
    overall := s
    grade := gradeOf s
    summary := sectionedSummary (gradeOf s) secs.length
    top := topImprovements iss
    item_count := totalItems
    max_depth := (secs.map (fun sec => itemsDepth sec.items)).foldr max 0
    avg_line := avgLineLength ((secs.map (fun sec => sec.items.map textOf)).flatten)
    fit := (assessContext ctx totalItems).1
    feedback := (assessContext ctx totalItems).2
    sscores := some sscores }

/-- Core outcome of a validated input. -/
def coreOf (v : ValidInput) (cite : Bool) : CoreOutcome :=
  match v with
  | .flat items ctx => flatCore items ctx cite
  | .sectioned secs ctx => sectionedCore secs ctx cite

/-- Modelled from the spec: §4.4 — final assembly: strict mode promotes every
warning to an error before the severity partitioning; the numeric fields are
taken from the core outcome unchanged. -/
def buildAnalysis (c : CoreOutcome) (strict : Bool) : BulletAnalysis :=
  let iss := if strict then c.issues.map promoteIssue else c.issues
  { overall_score := c.overall
    grade := c.grade
    scores := c.scores
    errors := iss.filter (fun i => i.severity = .error)
    warnings := iss.filter (fun i => i.severity = .warning)
    suggestions := iss.filter (fun i => i.severity = .suggestion)
    summary := c.summary
    top_improvements := c.top
    item_count := c.item_count
    max_depth := c.max_depth
    avg_line_length := c.avg_line
    context_fit := c.fit
    context_feedback := c.feedback
    section_scores := c.sscores }

/-- Modelled from the spec: §6 — the single public operation: validate, then
run the pipeline; a malformed input yields a single terminal error and no
partial result. -/
def analyze (r : RawInput) (cfg : BulletConfig) : Except String BulletAnalysis :=
  match validateInput r with
  | .error e => .error e
  | .ok v => .ok (buildAnalysis (coreOf v cfg.validation.enableResearchCitations)
      cfg.validation.strictMode)

/-- Is the analysis outcome a success? -/
def okBool : Except String BulletAnalysis → Bool
  | .ok _ => true
  | .error _ => false

/- ## Concrete inputs used to exercise the pipeline -/

/-- A leaf bullet item with the given text. -/
def mkItem (s : String) : BulletItem :=
  .node s none []

/-- The default configuration: non-strict, citations on, color off. -/
def defCfg : BulletConfig :=
  mkConfig false true false

/-- Three well-formed items in the ideal 45-75 character range. -/
def idealItems : List BulletItem :=
  [mkItem "Use consistent grammar throughout the list items",
   mkItem "Create parallel structure for better scanning",
   mkItem "Maintain good readability with similar forms"]

/-- A flat input with the three ideal items. -/
def idealInput : RawInput :=
  ⟨some idealItems, none, none⟩

/-- Eight distinct valid items (triggers the LIST_LENGTH warning). -/
def eightItems : List BulletItem :=
  [mkItem "Alpha item with enough descriptive text here",
   mkItem "Bravo item with enough descriptive text here",
   mkItem "Charlie item with enough descriptive text",
   mkItem "Delta item with enough descriptive text here",
   mkItem "Echo item with enough descriptive text here",
   mkItem "Foxtrot item with enough descriptive text",
   mkItem "Golf item with enough descriptive text here",
   mkItem "Hotel item with enough descriptive text here"]

/-- A flat input with the eight items. -/
def eightInput : RawInput :=
  ⟨some eightItems, none, none⟩

/-- An input supplying both `items` and `sections` (malformed). -/
def bothInput : RawInput :=
  ⟨some [mkItem "An item here"],
   some [⟨"Section 1", [mkItem "An item here"], none⟩], none⟩

/-- A 500-character line. -/
def longText : String :=
  String.mk (List.replicate 500 'A')

/-- A flat input whose first item is extremely long (500 characters). -/
def longLineInput : RawInput :=
  ⟨some [mkItem longText,
         mkItem "Normal length bullet point for comparison",
         mkItem "Another normal length bullet point here"], none, none⟩

/-- Does a successful analysis carry a LINE_LENGTH warning? -/
def hasLineWarning : Except String BulletAnalysis → Bool
  | .ok a => a.warnings.any (fun iss => iss.rule == "LINE_LENGTH")
  | .error _ => false

/-- Items whose first item text is shorter than 40 characters. -/
def shortFirstItems : List BulletItem :=
  [mkItem "Short text here",
   mkItem "Second bullet point with a fine length here",
   mkItem "Third bullet point with a fine length here"]

/-- Two items sharing their first two words up to case. -/
def dupFirstItems : List BulletItem :=
  [mkItem "Use consistent grammar throughout the list",
   mkItem "use Consistent structure for better scanning",
   mkItem "Maintain readability with similar text forms"]

/-- A flat input under the `presentation` context. -/
def presInput : RawInput :=
  ⟨some idealItems, none, some .presentation⟩

/-- Two well-formed sections. -/
def twoSections : List BulletSection :=
  [⟨"Introduction", idealItems, none⟩,
   ⟨"Methods",
    [mkItem "Apply research-based formatting guidelines",
     mkItem "Follow evidence-based design principles here",
     mkItem "Implement structured content approaches now"], some .reference⟩]

/-- A two-section input. -/
def twoSectionInput : RawInput :=
  ⟨none, some twoSections, none⟩

/-- A fallback analysis value (never produced by `analyze`). -/
def emptyAnalysis : BulletAnalysis :=
  ⟨0, .F, [], [], [], [], "", [], 0, 0, 0, .good, none, none⟩

/-- The analysis result of an input, with the fallback on error. -/
def resultOf (r : RawInput) (cfg : BulletConfig) : BulletAnalysis :=
  match analyze r cfg with
  | .ok a => a
  | .error _ => emptyAnalysis

/-- The section scores of an analysis, defaulting to the empty list. -/
def sectionScoresOf (a : BulletAnalysis) : List SectionScore :=
  a.section_scores.getD []

/-- Case-insensitive first-two-word keys of an item list. -/
def keysOf (items : List BulletItem) : List (List (List Char)) :=
  items.map (fun it => firstTwoKey (textOf it))

/- ## Basic lemmas about the aggregation -/

theorem promoteIssue_severity_ne_warning (i : ValidationIssue) :
    (promoteIssue i).severity ≠ .warning := by
  unfold promoteIssue
  split
  · simp
  · simpa using by assumption

theorem promoteIssue_of_warning (i : ValidationIssue) (h : i.severity = .warning) :
    promoteIssue i = { i with severity := .error } := by
  unfold promoteIssue
  simp [h]

theorem buildAnalysis_warnings_strict (c : CoreOutcome) :
    (buildAnalysis c true).warnings = [] := by
  simp only [buildAnalysis, if_pos rfl]
  apply List.filter_eq_nil_iff.mpr
  intro i hi
  rcases List.mem_map.mp hi with ⟨j, _, rfl⟩
  simpa using promoteIssue_severity_ne_warning j

theorem buildAnalysis_warning_promoted (c : CoreOutcome) (w : ValidationIssue)
    (hw : w ∈ (buildAnalysis c false).warnings) :
    { w with severity := Severity.error } ∈ (buildAnalysis c true).errors := by
  simp only [buildAnalysis, if_pos rfl, if_neg (Bool.false_ne_true)] at hw ⊢
  have hmem := List.mem_filter.mp hw
  have hsev : w.severity = .warning := by
    have := hmem.2
    simpa using this
  apply List.mem_filter.mpr
  constructor
  · rw [← promoteIssue_of_warning w hsev]
    exact List.mem_map.mpr ⟨w, hmem.1, rfl⟩
  · simp

/-- C1: with `strictMode = true`, analysis of any valid input leaves the
warnings bucket empty, every warning of the non-strict run reappears in the
errors bucket with severity `error`, and `overall_score` is unchanged. -/
theorem strict_mode_promotes_without_changing_score
    (r : RawInput) (cite color : Bool)
    (h : okBool (analyze r (mkConfig false cite color)) = true) :
    ∃ a0 a1, analyze r (mkConfig false cite color) = .ok a0 ∧
      analyze r (mkConfig true cite color) = .ok a1 ∧
      a1.warnings = [] ∧
      a1.overall_score = a0.overall_score ∧
      ∀ w ∈ a0.warnings, { w with severity := Severity.error } ∈ a1.errors := by
  unfold analyze at *
  cases hv : validateInput r with
  | error e =>
    rw [hv] at h
    simp [okBool] at h
  | ok v =>
    refine ⟨buildAnalysis (coreOf v cite) false, buildAnalysis (coreOf v cite) true,
      rfl, rfl, buildAnalysis_warnings_strict _, rfl, ?_⟩
    intro w hw
    exact buildAnalysis_warning_promoted _ w hw

/- ## Score arithmetic lemmas -/

theorem sumEarned_map_stripScore (l : List RuleScore) :
    sumEarned (l.map stripScore) = sumEarned l := by
  unfold sumEarned
  rw [List.map_map]
  rfl

theorem sumEarned_map_tagScore (t : String) (l : List RuleScore) :
    sumEarned (l.map (tagScore t)) = sumEarned l := by
  unfold sumEarned
  rw [List.map_map]
  rfl

theorem sumMax_map_stripScore (l : List RuleScore) :
    sumMax (l.map stripScore) = sumMax l := by
  unfold sumMax
  rw [List.map_map]
  rfl

theorem sumMax_map_tagScore (t : String) (l : List RuleScore) :
    sumMax (l.map (tagScore t)) = sumMax l := by
  unfold sumMax
  rw [List.map_map]
  rfl

theorem sumEarned_map_tag_strip (t : String) (l : List RuleScore) :
    sumEarned (l.map (tagScore t ∘ stripScore)) = sumEarned l := by
  unfold sumEarned
  rw [List.map_map]
  rfl

theorem sumMax_map_tag_strip (t : String) (l : List RuleScore) :
    sumMax (l.map (tagScore t ∘ stripScore)) = sumMax l := by
  unfold sumMax
  rw [List.map_map]
  rfl

theorem processedScores_earned (items : List BulletItem) (title : Option String)
    (cite : Bool) :
    sumEarned (processedScores items title cite) = sumEarned (ruleScoresFor items) := by
  unfold processedScores
  cases title <;> cases cite <;>
    simp [sumEarned_map_stripScore, sumEarned_map_tagScore, sumEarned_map_tag_strip]

theorem processedScores_max (items : List BulletItem) (title : Option String)
    (cite : Bool) :
    sumMax (processedScores items title cite) = sumMax (ruleScoresFor items) := by
  unfold processedScores
  cases title <;> cases cite <;>
    simp [sumMax_map_stripScore, sumMax_map_tagScore, sumMax_map_tag_strip]

theorem ruleScoresFor_max (items : List BulletItem) :
    sumMax (ruleScoresFor items) = 100 := rfl

theorem ruleScoresFor_earned_le (items : List BulletItem) :
    sumEarned (ruleScoresFor items) ≤ 100 := by
  have h1 := Nat.sub_le 20 (min (listLengthDeduction items.length) 20)
  have h2 := Nat.sub_le 15 (min (hierarchyDeduction (itemsDepth items)) 15)
  have h3 := Nat.sub_le 15
    (min ((items.map (fun it => lineDeductionFor (textOf it))).sum) 15)
  have h4 := Nat.sub_le 10 (min (2 * (serialIssues items.length 0 items).length) 10)
  have h5 := Nat.sub_le 20 (min (5 * (structureIssues items).length) 20)
  have h6 := Nat.sub_le 10
    (min (3 * (dupIndices (items.map (fun it => firstTwoKey (textOf it)))).length) 10)
  have h7 := Nat.sub_le 10 (min (2 * (formattingIssues (items.map textOf)).length) 10)
  simp only [ruleScoresFor, sumEarned, listLengthRule, hierarchyRule, lineLengthRule,
    serialPositionRule, structureRule, firstWordsRule, formattingRule,
    List.map_cons, List.map_nil, List.sum_cons, List.sum_nil]
  omega

theorem sumEarned_append (l₁ l₂ : List RuleScore) :
    sumEarned (l₁ ++ l₂) = sumEarned l₁ + sumEarned l₂ := by
  unfold sumEarned
  rw [List.map_append, List.sum_append]

theorem sumMax_append (l₁ l₂ : List RuleScore) :
    sumMax (l₁ ++ l₂) = sumMax l₁ + sumMax l₂ := by
  unfold sumMax
  rw [List.map_append, List.sum_append]

theorem sumEarned_flatten (L : List (List RuleScore)) :
    sumEarned L.flatten = (L.map sumEarned).sum := by
  induction L with
  | nil => rfl
  | cons a L ih => simp [List.flatten_cons, sumEarned_append, ih]

theorem sumMax_flatten (L : List (List RuleScore)) :
    sumMax L.flatten = (L.map sumMax).sum := by
  induction L with
  | nil => rfl
  | cons a L ih => simp [List.flatten_cons, sumMax_append, ih]

theorem sum_const_nat {α : Type} (l : List α) (c : Nat) :
    (l.map (fun _ => c)).sum = c * l.length := by
  induction l with
  | nil => simp
  | cons a l ih => simp [ih, Nat.mul_succ]; ring

theorem sum_le_const_mul {α : Type} (l : List α) (f : α → Nat) (c : Nat)
    (h : ∀ x ∈ l, f x ≤ c) : (l.map f).sum ≤ c * l.length := by
  induction l with
  | nil => simp
  | cons a l ih =>
    simp only [List.map_cons, List.sum_cons, List.length_cons, Nat.mul_succ]
    have ha := h a (List.mem_cons_self a l)
    have hl := ih (fun x hx => h x (List.mem_cons_of_mem a hx))
    omega

theorem roundDiv_hundred (e : Nat) : roundDiv (100 * e) 100 = e := by
  unfold roundDiv
  omega

theorem scoreFrom_hundred (e : Nat) (he : e ≤ 100) : scoreFrom e 100 = e := by
  unfold scoreFrom
  rw [roundDiv_hundred]
  exact Nat.min_eq_right he

theorem roundDiv_mul_hundred (a b : Nat) :
    roundDiv (100 * a) (100 * b) = roundDiv a b := by
  unfold roundDiv
  have h1 : 2 * (100 * a) + 100 * b = 100 * (2 * a + b) := by ring
  have h2 : 2 * (100 * b) = 100 * (2 * b) := by ring
  rw [h1, h2, Nat.mul_div_mul_left _ _ (by norm_num : (0:Nat) < 100)]

theorem roundDiv_le_hundred (S n : Nat) (h : S ≤ 100 * n) : roundDiv S n ≤ 100 := by
  unfold roundDiv
  cases n with
  | zero =>
    have : S = 0 := by omega
    subst this
    simp
  | succ m =>
    rw [Nat.div_le_iff_le_mul_add_pred (by omega : 0 < 2 * (m + 1))]
    omega

/- ## The overall score of both pipelines matches the aggregator formula -/

theorem sectionScoreOf_score (sec : BulletSection) (ctx : Context) (cite : Bool) :
    (sectionScoreOf sec ctx cite).score =
      sumEarned (processedScores sec.items (some sec.title) cite) := by
  have hm : sumMax (processedScores sec.items (some sec.title) cite) = 100 := by
    rw [processedScores_max, ruleScoresFor_max]
  have he : sumEarned (processedScores sec.items (some sec.title) cite) ≤ 100 := by
    rw [processedScores_earned]
    exact ruleScoresFor_earned_le sec.items
  show scoreFrom (sumEarned (processedScores sec.items (some sec.title) cite))
      (sumMax (processedScores sec.items (some sec.title) cite)) = _
  rw [hm, scoreFrom_hundred _ he]

theorem sectionScoreOf_score_le (sec : BulletSection) (ctx : Context) (cite : Bool) :
    (sectionScoreOf sec ctx cite).score ≤ 100 := by
  rw [sectionScoreOf_score, processedScores_earned]
  exact ruleScoresFor_earned_le sec.items

theorem sectionedCore_overall (secs : List BulletSection) (ctx : Context) (cite : Bool) :
    (sectionedCore secs ctx cite).overall =
      min 100 (roundDiv (100 * sumEarned (sectionedCore secs ctx cite).scores)
        (sumMax (sectionedCore secs ctx cite).scores)) := by
  have hscores : (sectionedCore secs ctx cite).scores =
      (secs.map (fun sec => processedScores sec.items (some sec.title) cite)).flatten := rfl
  have hoverall : (sectionedCore secs ctx cite).overall =
      roundDiv (((secs.map (fun sec => sectionScoreOf sec ctx cite)).map (·.score)).sum)
        secs.length := rfl
  rw [hscores, hoverall, sumEarned_flatten, sumMax_flatten, List.map_map, List.map_map,
    List.map_map]
  have hE : ∀ sec ∈ secs,
      ((fun s => s.score) ∘ fun sec => sectionScoreOf sec ctx cite) sec =
      (sumEarned ∘ fun sec => processedScores sec.items (some sec.title) cite) sec := by
    intro sec _
    exact sectionScoreOf_score sec ctx cite
  rw [List.map_congr_left hE]
  have hM : ∀ sec ∈ secs,
      (sumMax ∘ fun sec => processedScores sec.items (some sec.title) cite) sec =
      (fun _ => (100 : Nat)) sec := by
    intro sec _
    show sumMax (processedScores sec.items (some sec.title) cite) = 100
    rw [processedScores_max, ruleScoresFor_max]
  rw [List.map_congr_left hM, sum_const_nat]
  have hSle : ((secs.map
      (sumEarned ∘ fun sec => processedScores sec.items (some sec.title) cite)).sum) ≤
      100 * secs.length := by
    apply sum_le_const_mul
    intro sec _
    show sumEarned (processedScores sec.items (some sec.title) cite) ≤ 100
    rw [processedScores_earned]
    exact ruleScoresFor_earned_le sec.items
  rw [roundDiv_mul_hundred]
  exact (Nat.min_eq_right (roundDiv_le_hundred _ _ hSle)).symm

theorem coreOf_overall (v : ValidInput) (cite : Bool) :
    (coreOf v cite).overall =
      min 100 (roundDiv (100 * sumEarned (coreOf v cite).scores)
        (sumMax (coreOf v cite).scores)) := by
  cases v with
  | flat items ctx => rfl
  | sectioned secs ctx => exact sectionedCore_overall secs ctx cite

theorem coreOf_grade (v : ValidInput) (cite : Bool) :
    (coreOf v cite).grade = gradeOf ((coreOf v cite).overall) := by
  cases v <;> rfl

/-- C4: for every analysis result, `overall_score` equals
sum(earned) / sum(max) × 100 rounded to the nearest integer and clamped to
[0, 100], and the letter grade follows inclusive lower-edge banding
(A ≥ 90, B ≥ 80, C ≥ 70, D ≥ 60, F below 60). -/
theorem overall_score_formula_and_grade_banding
    (r : RawInput) (cfg : BulletConfig) (a : BulletAnalysis)
    (h : analyze r cfg = .ok a) :
    a.overall_score =
      min 100 (roundDiv (100 * sumEarned a.scores) (sumMax a.scores)) ∧
    a.grade = (if 90 ≤ a.overall_score then Grade.A
      else if 80 ≤ a.overall_score then Grade.B
      else if 70 ≤ a.overall_score then Grade.C
      else if 60 ≤ a.overall_score then Grade.D
      else Grade.F) := by
  unfold analyze at h
  cases hv : validateInput r with
  | error e =>
    rw [hv] at h
    exact absurd h (by simp)
  | ok v =>
    rw [hv] at h
    have ha : a = buildAnalysis (coreOf v cfg.validation.enableResearchCitations)
        cfg.validation.strictMode := by
      have := h
      simp only [Except.ok.injEq] at this
      exact this.symm
    subst ha
    refine ⟨coreOf_overall v _, ?_⟩
    show (coreOf v _).grade = _
    rw [coreOf_grade]
    rfl

/-- C2: for every sectioned input, the document-level `overall_score` is the
(rounded) unweighted arithmetic mean of the per-section 0-100 scores, so each
section contributes equally regardless of its item count. -/
theorem sectioned_overall_is_mean_of_section_scores
    (r : RawInput) (cfg : BulletConfig) (a : BulletAnalysis) (ss : List SectionScore)
    (h : analyze r cfg = .ok a) (hs : a.section_scores = some ss) :
    a.overall_score = roundDiv ((ss.map (·.score)).sum) ss.length := by
  unfold analyze at h
  cases hv : validateInput r with
  | error e =>
    rw [hv] at h
    exact absurd h (by simp)
  | ok v =>
    rw [hv] at h
    have ha : a = buildAnalysis (coreOf v cfg.validation.enableResearchCitations)
        cfg.validation.strictMode := by
      simp only [Except.ok.injEq] at h
      exact h.symm
    subst ha
    cases v with
    | flat items ctx =>
      exact absurd hs (by simp [buildAnalysis, coreOf, flatCore])
    | sectioned secs ctx =>
      have hss : ss = secs.map (fun sec =>
          sectionScoreOf sec ctx cfg.validation.enableResearchCitations) := by
        have : some ((secs.map (fun sec =>
            sectionScoreOf sec ctx cfg.validation.enableResearchCitations))) = some ss := hs
        simpa using this.symm
      subst hss
      show (sectionedCore secs ctx cfg.validation.enableResearchCitations).overall = _
    
      rw [List.length_map]
      rfl

/-- C3: supplying both `items` and `sections`, supplying neither, or supplying
the chosen sequence empty makes `analyze` fail with a single terminal error
(no partial result); in the both-supplied case the message contains
"Cannot use both". -/
theorem malformed_input_rejected_before_scoring
    (r : RawInput) (cfg : BulletConfig)
    (h : (r.items.isSome ∧ r.sections.isSome) ∨ (r.items = none ∧ r.sections = none) ∨
      r.items = some [] ∨ r.sections = some []) :
    (∃ e, analyze r cfg = .error e) ∧
    (r.items.isSome → r.sections.isSome →
      analyze r cfg = .error "Cannot use both `items` and `sections`" ∧
      strContains "Cannot use both `items` and `sections`" "Cannot use both" = true) := by
  unfold analyze validateInput
  cases hit : r.items with
  | some its =>
    cases hsec : r.sections with
    | some secs =>
      exact ⟨⟨"Cannot use both `items` and `sections`", rfl⟩,
        fun _ _ => ⟨rfl, by decide⟩⟩
    | none =>
      have hempty : its = [] := by
        rcases h with ⟨_, hs⟩ | ⟨hi, _⟩ | hi | hs
        · rw [hsec] at hs
          simp at hs
        · rw [hit] at hi
          simp at hi
        · rw [hit] at hi
          simpa using hi.symm
        · rw [hsec] at hs
          simp at hs
      subst hempty
      refine ⟨⟨"`items` must be a non-empty array", by simp⟩, ?_⟩
      intro _ hs
      simp at hs
  | none =>
    cases hsec : r.sections with
    | some secs =>
      have hempty : secs = [] := by
        rcases h with ⟨hi, _⟩ | ⟨_, hs⟩ | hi | hs
        · rw [hit] at hi
          simp at hi
        · rw [hsec] at hs
          simp at hs
        · rw [hit] at hi
          simp at hi
        · rw [hsec] at hs
          simpa using hs.symm
      subst hempty
      refine ⟨⟨"`sections` must be a non-empty array", by simp⟩, ?_⟩
      intro hi _
      simp at hi
    | none =>
      refine ⟨⟨"Must provide either `items` or `sections`", rfl⟩, ?_⟩
      intro hi _
      simp at hi

/-- C5: the LIST_LENGTH score as a function of item count — no issue and full
20 points in [3,7]; exactly one suggestion with a partial deduction for 1-2
items; exactly one warning with a partial deduction for 8-9; exactly one error
and 0 points at 10+. -/
theorem list_length_schedule (items : List BulletItem) :
    (3 ≤ items.length ∧ items.length ≤ 7 →
      (listLengthRule items).issues = [] ∧ (listLengthRule items).earned_points = 20) ∧
    (items.length = 1 ∨ items.length = 2 →
      (listLengthRule items).issues.length = 1 ∧
      (∀ iss ∈ (listLengthRule items).issues, iss.severity = .suggestion) ∧
      0 < (listLengthRule items).earned_points ∧
      (listLengthRule items).earned_points < 20) ∧
    (items.length = 8 ∨ items.length = 9 →
      (listLengthRule items).issues.length = 1 ∧
      (∀ iss ∈ (listLengthRule items).issues, iss.severity = .warning) ∧
      0 < (listLengthRule items).earned_points ∧
      (listLengthRule items).earned_points < 20) ∧
    (10 ≤ items.length →
      (listLengthRule items).issues.length = 1 ∧
      (∀ iss ∈ (listLengthRule items).issues, iss.severity = .error) ∧
      (listLengthRule items).earned_points = 0) := by
  refine ⟨?_, ?_, ?_, ?_⟩
  · intro hn
    simp [listLengthRule, listLengthIssues, listLengthDeduction, hn.1, hn.2]
  · intro hn
    have h1 : ¬(3 ≤ items.length ∧ items.length ≤ 7) := by omega
    have h2 : items.length ≤ 2 := by omega
    refine ⟨?_, ?_, ?_, ?_⟩ <;>
      simp [listLengthRule, listLengthIssues, listLengthDeduction, h1, h2]
  · intro hn
    have h1 : ¬(3 ≤ items.length ∧ items.length ≤ 7) := by omega
    have h2 : ¬items.length ≤ 2 := by omega
    have h3 : items.length ≤ 9 := by omega
    refine ⟨?_, ?_, ?_, ?_⟩ <;>
      simp [listLengthRule, listLengthIssues, listLengthDeduction, h1, h2, h3]
  · intro hn
    have h1 : ¬(3 ≤ items.length ∧ items.length ≤ 7) := by omega
    have h2 : ¬items.length ≤ 2 := by omega
    have h3 : ¬items.length ≤ 9 := by omega
    refine ⟨?_, ?_, ?_⟩ <;>
      simp [listLengthRule, listLengthIssues, listLengthDeduction, h1, h2, h3]

/-- C6: the HIERARCHY score as a function of maximum nesting depth — no issue
and full 15 points at depth 1 or 2; exactly one warning with a partial
deduction at depth exactly 3; exactly one error and 0 points at depth 4+. -/
theorem hierarchy_schedule (items : List BulletItem) :
    (itemsDepth items = 1 ∨ itemsDepth items = 2 →
      (hierarchyRule items).issues = [] ∧ (hierarchyRule items).earned_points = 15) ∧
    (itemsDepth items = 3 →
      (hierarchyRule items).issues.length = 1 ∧
      (∀ iss ∈ (hierarchyRule items).issues, iss.severity = .warning) ∧
      0 < (hierarchyRule items).earned_points ∧
      (hierarchyRule items).earned_points < 15) ∧
    (4 ≤ itemsDepth items →
      (hierarchyRule items).issues.length = 1 ∧
      (∀ iss ∈ (hierarchyRule items).issues, iss.severity = .error) ∧
      (hierarchyRule items).earned_points = 0) := by
  refine ⟨?_, ?_, ?_⟩
  · intro hd
    have h1 : itemsDepth items ≤ 2 := by omega
    simp [hierarchyRule, hierarchyIssues, hierarchyDeduction, h1]
  · intro hd
    have h1 : ¬itemsDepth items ≤ 2 := by omega
    refine ⟨?_, ?_, ?_, ?_⟩ <;>
      simp [hierarchyRule, hierarchyIssues, hierarchyDeduction, h1, hd]
  · intro hd
    have h1 : ¬itemsDepth items ≤ 2 := by omega
    have h2 : ¬itemsDepth items = 3 := by omega
    refine ⟨?_, ?_, ?_⟩ <;>
      simp [hierarchyRule, hierarchyIssues, hierarchyDeduction, h1, h2]

/- ## LINE_LENGTH characterization -/

theorem lineIssueFor_index (m : Nat) (s : String) (iss : ValidationIssue)
    (h : lineIssueFor m s = some iss) : iss.item_index = some m := by
  unfold lineIssueFor at h
  split_ifs at h
  · injection h with h
    subst h
    rfl
  · injection h with h
    subst h
    rfl

theorem lineIssueFor_short (m : Nat) (s : String) (h : charCount s < 40) :
    ∃ iss, lineIssueFor m s = some iss ∧ iss.item_index = some m ∧
      iss.severity = .suggestion := by
  unfold lineIssueFor
  rw [if_pos h]
  exact ⟨_, rfl, rfl, rfl⟩

theorem lineIssueFor_long (m : Nat) (s : String) (h40 : ¬charCount s < 40)
    (h80 : 80 < charCount s) :
    ∃ iss, lineIssueFor m s = some iss ∧ iss.item_index = some m ∧
      iss.severity = .warning := by
  unfold lineIssueFor
  rw [if_neg h40, if_pos h80]
  exact ⟨_, rfl, rfl, rfl⟩

theorem lineIssueFor_mid (m : Nat) (s : String) (h40 : ¬charCount s < 40)
    (h80 : ¬80 < charCount s) : lineIssueFor m s = none := by
  unfold lineIssueFor
  rw [if_neg h40, if_neg h80]

theorem mem_lineIssuesAux (l : List String) (k : Nat) (iss : ValidationIssue) :
    iss ∈ lineIssuesAux k l ↔
      ∃ j, ∃ h : j < l.length, lineIssueFor (k + j) (l.get ⟨j, h⟩) = some iss := by
  induction l generalizing k with
  | nil => simp [lineIssuesAux]
  | cons s rest ih =>
    show iss ∈ (match lineIssueFor k s with
      | some iss0 => iss0 :: lineIssuesAux (k + 1) rest
      | none => lineIssuesAux (k + 1) rest) ↔ _
    cases hls : lineIssueFor k s with
    | none =>
      simp only []
      rw [ih]
      constructor
      · rintro ⟨j, hj, he⟩
        refine ⟨j + 1, by simpa using Nat.succ_lt_succ hj, ?_⟩
        have : k + (j + 1) = k + 1 + j := by omega
        rw [this]
        simpa using he
      · rintro ⟨j, hj, he⟩
        cases j with
        | zero =>
          simp only [List.get, Nat.add_zero] at he
          rw [hls] at he
          cases he
        | succ j' =>
          refine ⟨j', by simp only [List.length_cons] at hj; omega, ?_⟩
          have : k + 1 + j' = k + (j' + 1) := by omega
          rw [this]
          simpa using he
    | some iss0 =>
      simp only [List.mem_cons]
      rw [ih]
      constructor
      · rintro (rfl | ⟨j, hj, he⟩)
        · exact ⟨0, by simp, by simpa using hls⟩
        · refine ⟨j + 1, by simpa using Nat.succ_lt_succ hj, ?_⟩
          have : k + (j + 1) = k + 1 + j := by omega
          rw [this]
          simpa using he
      · rintro ⟨j, hj, he⟩
        cases j with
        | zero =>
          left
          simp only [List.get, Nat.add_zero] at he
          rw [hls] at he
          injection he with he
          exact he.symm
        | succ j' =>
          right
          refine ⟨j', by simp only [List.length_cons] at hj; omega, ?_⟩
          have : k + 1 + j' = k + (j' + 1) := by omega
          rw [this]
          simpa using he

set_option maxRecDepth 10000 in
/-- C7: LINE_LENGTH judges each item independently — below 40 characters a
suggestion is raised for that item, in 45-75 no issue is raised for it, above
80 a warning is raised; per-item deductions accumulate with the total capped
at the 15-point maximum; and a 500-character line yields a LINE_LENGTH
warning from a successful analysis rather than an input error. -/
theorem line_length_per_item_and_cap
    (items : List BulletItem) (i : Nat) (hi : i < items.length) :
    (charCount (textOf (items.get ⟨i, hi⟩)) < 40 →
      ∃ iss ∈ (lineLengthRule items).issues,
        iss.item_index = some i ∧ iss.severity = .suggestion) ∧
    (45 ≤ charCount (textOf (items.get ⟨i, hi⟩)) ∧
        charCount (textOf (items.get ⟨i, hi⟩)) ≤ 75 →
      ∀ iss ∈ (lineLengthRule items).issues, iss.item_index ≠ some i) ∧
    (80 < charCount (textOf (items.get ⟨i, hi⟩)) →
      ∃ iss ∈ (lineLengthRule items).issues,
        iss.item_index = some i ∧ iss.severity = .warning) ∧
    ((lineLengthRule items).earned_points ≤ 15 ∧
     (15 ≤ (items.map (fun it => lineDeductionFor (textOf it))).sum →
       (lineLengthRule items).earned_points = 0) ∧
     ((items.map (fun it => lineDeductionFor (textOf it))).sum ≤ 15 →
       (lineLengthRule items).earned_points =
         15 - (items.map (fun it => lineDeductionFor (textOf it))).sum)) ∧
    (okBool (analyze longLineInput defCfg) = true ∧
     hasLineWarning (analyze longLineInput defCfg) = true) := by
  have hmap : i < (items.map textOf).length := by simpa using hi
  have hget : (items.map textOf).get ⟨i, hmap⟩ = textOf (items.get ⟨i, hi⟩) := by
    simp
  have hissues : (lineLengthRule items).issues = lineIssuesAux 0 (items.map textOf) := rfl
  refine ⟨?_, ?_, ?_, ?_, ?_⟩
  · intro hL
    obtain ⟨iss, he, hidx, hsev⟩ := lineIssueFor_short (0 + i)
      ((items.map textOf).get ⟨i, hmap⟩) (by rw [hget]; exact hL)
    refine ⟨iss, ?_, ?_, hsev⟩
    · rw [hissues]
      exact (mem_lineIssuesAux (items.map textOf) 0 iss).mpr ⟨i, hmap, he⟩
    · rw [hidx, Nat.zero_add]
  · intro hL iss hmem hidx
    rw [hissues] at hmem
    obtain ⟨j, hj, he⟩ := (mem_lineIssuesAux (items.map textOf) 0 iss).mp hmem
    have hidx' := lineIssueFor_index _ _ _ he
    rw [hidx] at hidx'
    have hji : j = i := by
      injection hidx' with h
      omega
    subst hji
    have hget2 : (items.map textOf).get ⟨j, hj⟩ = textOf (items.get ⟨j, hi⟩) := by
      simp
    rw [hget2] at he
    have hmid := lineIssueFor_mid (0 + j) (textOf (items.get ⟨j, hi⟩))
      (by omega) (by omega)
    rw [hmid] at he
    cases he
  · intro hL
    obtain ⟨iss, he, hidx, hsev⟩ := lineIssueFor_long (0 + i)
      ((items.map textOf).get ⟨i, hmap⟩) (by rw [hget]; omega) (by rw [hget]; exact hL)
    refine ⟨iss, ?_, ?_, hsev⟩
    · rw [hissues]
      exact (mem_lineIssuesAux (items.map textOf) 0 iss).mpr ⟨i, hmap, he⟩
    · rw [hidx, Nat.zero_add]
  · refine ⟨Nat.sub_le _ _, ?_, ?_⟩ <;>
      · intro hd
        show 15 - min ((items.map (fun it => lineDeductionFor (textOf it))).sum) 15 = _
        omega
  · exact ⟨by decide, by decide⟩

/- ## FIRST_WORDS characterization -/

theorem get_mem_take {α : Type} (l : List α) (i j : Nat) (hi : i < l.length)
    (hij : i < j) : l.get ⟨i, hi⟩ ∈ l.take j := by
  apply List.mem_iff_get.mpr
  refine ⟨⟨i, by rw [List.length_take]; omega⟩, ?_⟩
  simp

theorem mem_dupIndices (keys : List (List (List Char))) (i : Nat) :
    i ∈ dupIndices keys ↔ i < keys.length ∧ keys.getD i [] ∈ keys.take i := by
  unfold dupIndices
  rw [List.mem_filter, List.mem_range]
  simp

theorem dupIndices_nil_of_distinct (keys : List (List (List Char)))
    (h : ∀ i j (hi : i < keys.length) (hj : j < keys.length),
      i ≠ j → keys.get ⟨i, hi⟩ ≠ keys.get ⟨j, hj⟩) :
    dupIndices keys = [] := by
  unfold dupIndices
  apply List.filter_eq_nil_iff.mpr
  intro i hir
  rw [List.mem_range] at hir
  simp only [decide_eq_true_eq]
  intro hmem
  obtain ⟨⟨m, hm⟩, hget⟩ := List.mem_iff_get.mp hmem
  have hmi : m < i := by
    rw [List.length_take] at hm
    omega
  have hmlen : m < keys.length := by omega
  have heq : keys.get ⟨m, hmlen⟩ = keys.get ⟨i, hir⟩ := by
    have h1 : (keys.take i).get ⟨m, hm⟩ = keys.get ⟨m, hmlen⟩ := by simp
    have h2 : keys.getD i [] = keys.get ⟨i, hir⟩ := by
      simp [List.getD_eq_getElem?_getD, List.getElem?_eq_getElem hir]
    rw [h1, h2] at hget
    exact hget
  exact h m i hmlen hir (by omega) heq

/-- C8: FIRST_WORDS compares the first two words of every item
case-insensitively — any two items sharing their first two words up to case
produce a warning, and fully distinct first-two-word keys yield no issue and
the full 10 points. -/
theorem first_words_case_insensitive (items : List BulletItem) :
    ((∃ i, ∃ j, ∃ hi : i < (keysOf items).length, ∃ hj : j < (keysOf items).length,
        i ≠ j ∧ (keysOf items).get ⟨i, hi⟩ = (keysOf items).get ⟨j, hj⟩) →
      ∃ iss ∈ (firstWordsRule items).issues, iss.severity = .warning) ∧
    ((∀ i j (hi : i < (keysOf items).length) (hj : j < (keysOf items).length),
        i ≠ j → (keysOf items).get ⟨i, hi⟩ ≠ (keysOf items).get ⟨j, hj⟩) →
      (firstWordsRule items).issues = [] ∧
      (firstWordsRule items).earned_points = 10) := by
  constructor
  · rintro ⟨i, j, hi, hj, hne, heq⟩
    have hdup : ∀ a b (ha : a < (keysOf items).length) (hb : b < (keysOf items).length),
        a < b → (keysOf items).get ⟨a, ha⟩ = (keysOf items).get ⟨b, hb⟩ →
        ∃ iss ∈ (firstWordsRule items).issues, iss.severity = .warning := by
      intro a b ha hb hab hkey
      have hmem : b ∈ dupIndices (keysOf items) := by
        apply (mem_dupIndices (keysOf items) b).mpr
        refine ⟨hb, ?_⟩
        have hgd : (keysOf items).getD b [] = (keysOf items).get ⟨b, hb⟩ := by
          simp [List.getD_eq_getElem?_getD, List.getElem?_eq_getElem hb]
        rw [hgd, ← hkey]
        exact get_mem_take _ a b ha hab
      refine ⟨_, List.mem_map.mpr ⟨b, hmem, rfl⟩, rfl⟩
    rcases Nat.lt_trichotomy i j with hlt | hequ | hgt
    · exact hdup i j hi hj hlt heq
    · exact absurd hequ hne
    · exact hdup j i hj hi hgt heq.symm
  · intro h
    have hX : dupIndices (keysOf items) = [] := dupIndices_nil_of_distinct _ h
    constructor
    · show (dupIndices (keysOf items)).map _ = []
      rw [hX]
      rfl
    · show 10 - min (3 * (dupIndices (keysOf items)).length) 10 = 10
      rw [hX]
      rfl

/- ## Inversion of a successful analysis -/

theorem analyze_ok_inv (r : RawInput) (cfg : BulletConfig) (a : BulletAnalysis)
    (h : analyze r cfg = .ok a) :
    ∃ v, validateInput r = .ok v ∧
      a = buildAnalysis (coreOf v cfg.validation.enableResearchCitations)
        cfg.validation.strictMode := by
  unfold analyze at h
  cases hv : validateInput r with
  | error e =>
    rw [hv] at h
    exact absurd h (by simp)
  | ok v =>
    rw [hv] at h
    refine ⟨v, rfl, ?_⟩
    simp only [Except.ok.injEq] at h
    exact h.symm

theorem validateInput_some_flat (r : RawInput) (items : List BulletItem)
    (hit : r.items = some items) (hns : r.sections = none) (v : ValidInput)
    (hv : validateInput r = .ok v) :
    v = .flat items (r.context.getD .document) := by
  unfold validateInput at hv
  rw [hit, hns] at hv
  have hv2 : (if items.isEmpty = true then
        (Except.error "`items` must be a non-empty array" : Except String ValidInput)
      else if validItems items = true then
        Except.ok (ValidInput.flat items (r.context.getD Context.document))
      else Except.error "Each bullet item must have non-empty text") = Except.ok v := hv
  by_cases h1 : items.isEmpty = true
  · rw [if_pos h1] at hv2
    cases hv2
  · rw [if_neg h1] at hv2
    by_cases h2 : validItems items = true
    · rw [if_pos h2] at hv2
      injection hv2 with hv2
      exact hv2.symm
    · rw [if_neg h2] at hv2
      cases hv2

theorem validateInput_some_sectioned (r : RawInput) (secs : List BulletSection)
    (hit : r.items = none) (hs : r.sections = some secs) (v : ValidInput)
    (hv : validateInput r = .ok v) :
    v = .sectioned secs (r.context.getD .document) := by
  unfold validateInput at hv
  rw [hit, hs] at hv
  have hv2 : (if secs.isEmpty = true then
        (Except.error "`sections` must be a non-empty array" : Except String ValidInput)
      else if validSections secs = true then
        Except.ok (ValidInput.sectioned secs (r.context.getD Context.document))
      else Except.error "Each section must have a non-empty title and non-empty items") =
      Except.ok v := hv
  by_cases h1 : secs.isEmpty = true
  · rw [if_pos h1] at hv2
    cases hv2
  · rw [if_neg h1] at hv2
    by_cases h2 : validSections secs = true
    · rw [if_pos h2] at hv2
      injection hv2 with hv2
      exact hv2.symm
    · rw [if_neg h2] at hv2
      cases hv2

theorem validateInput_no_sections (r : RawInput) (hns : r.sections = none)
    (v : ValidInput) (hv : validateInput r = .ok v) :
    ∃ items, r.items = some items ∧ v = .flat items (r.context.getD .document) := by
  cases hit : r.items with
  | none =>
    unfold validateInput at hv
    rw [hit, hns] at hv
    cases hv
  | some items =>
    exact ⟨items, rfl, validateInput_some_flat r items hit hns v hv⟩

theorem validateInput_cases (r : RawInput) (v : ValidInput)
    (hv : validateInput r = .ok v) :
    (∃ items, r.items = some items ∧ r.sections = none ∧
      v = .flat items (r.context.getD .document)) ∨
    (∃ secs, r.items = none ∧ r.sections = some secs ∧
      v = .sectioned secs (r.context.getD .document)) := by
  cases hit : r.items with
  | some items =>
    cases hs : r.sections with
    | some secs =>
      unfold validateInput at hv
      rw [hit, hs] at hv
      cases hv
    | none =>
      exact Or.inl ⟨items, rfl, rfl, validateInput_some_flat r items hit hs v hv⟩
  | none =>
    cases hs : r.sections with
    | some secs =>
      exact Or.inr ⟨secs, rfl, rfl, validateInput_some_sectioned r secs hit hs v hv⟩
    | none =>
      unfold validateInput at hv
      rw [hit, hs] at hv
      cases hv

/-- C9: context-fit assessment for every valid input, flat or sectioned — a
`document` context whose item count lies in the recommended range yields
`excellent`; a `presentation` context yields `poor` with feedback mentioning
that visuals may be more persuasive; a `reference` context yields `good`. -/
theorem context_fit_assessment
    (r : RawInput) (cfg : BulletConfig) (a : BulletAnalysis)
    (h : analyze r cfg = .ok a) :
    (r.context = some .document → 3 ≤ a.item_count → a.item_count ≤ 7 →
      a.context_fit = .excellent) ∧
    (r.context = some .presentation →
      a.context_fit = .poor ∧ ∃ fb, a.context_feedback = some fb ∧
        strContains fb "visuals may be more persuasive" = true) ∧
    (r.context = some .reference → a.context_fit = .good) := by
  obtain ⟨v, hv, ha⟩ := analyze_ok_inv r cfg a h
  subst ha
  rcases validateInput_cases r v hv with ⟨items, hit, hns, hvf⟩ | ⟨secs, hit, hs, hvf⟩
  · subst hvf
    refine ⟨?_, ?_, ?_⟩
    · intro hctx h3 h7
      show (assessContext ((r.context).getD .document) items.length).1 = .excellent
      rw [hctx]
      show (assessContext .document items.length).1 = .excellent
      unfold assessContext
      rw [if_pos (⟨h3, h7⟩ : 3 ≤ items.length ∧ items.length ≤ 7)]
    · intro hctx
      refine ⟨?_, ?_⟩
      · show (assessContext ((r.context).getD .document) items.length).1 = .poor
        rw [hctx]
        rfl
      · show ∃ fb,
            (assessContext ((r.context).getD .document) items.length).2 = some fb ∧ _
        rw [hctx]
        exact ⟨_, rfl, by decide⟩
    · intro hctx
      show (assessContext ((r.context).getD .document) items.length).1 = .good
      rw [hctx]
      rfl
  · subst hvf
    refine ⟨?_, ?_, ?_⟩
    · intro hctx h3 h7
      show (assessContext ((r.context).getD .document)
        ((secs.map (fun sec => sec.items.length)).sum)).1 = .excellent
      rw [hctx]
      show (assessContext .document
        ((secs.map (fun sec => sec.items.length)).sum)).1 = .excellent
      unfold assessContext
      rw [if_pos (⟨h3, h7⟩ : 3 ≤ (secs.map (fun sec => sec.items.length)).sum ∧
        (secs.map (fun sec => sec.items.length)).sum ≤ 7)]
    · intro hctx
      refine ⟨?_, ?_⟩
      · show (assessContext ((r.context).getD .document)
            ((secs.map (fun sec => sec.items.length)).sum)).1 = .poor
        rw [hctx]
        rfl
      · show ∃ fb, (assessContext ((r.context).getD .document)
            ((secs.map (fun sec => sec.items.length)).sum)).2 = some fb ∧ _
        rw [hctx]
        exact ⟨_, rfl, by decide⟩
    · intro hctx
      show (assessContext ((r.context).getD .document)
          ((secs.map (fun sec => sec.items.length)).sum)).1 = .good
      rw [hctx]
      rfl

/-- C10: `section_scores` is present exactly in sectioned mode — a flat
analysis carries none, and a sectioned analysis carries one entry per input
section in input order, holding that section's title, its item count, its
resolved context, its own 0-100 score aggregated from that section's rule
scores, the letter grade banded from that score, and that section's issues. -/
theorem section_scores_presence
    (r : RawInput) (cfg : BulletConfig) (a : BulletAnalysis)
    (h : analyze r cfg = .ok a) :
    (r.sections = none → a.section_scores = none) ∧
    (∀ secs, r.sections = some secs →
      ∃ ss, a.section_scores = some ss ∧ ss.length = secs.length ∧
        ∀ i (hi : i < secs.length) (hi2 : i < ss.length),
          (ss.get ⟨i, hi2⟩).title = (secs.get ⟨i, hi⟩).title ∧
          (ss.get ⟨i, hi2⟩).item_count = (secs.get ⟨i, hi⟩).items.length ∧
          (ss.get ⟨i, hi2⟩).context =
            ((secs.get ⟨i, hi⟩).context.getD (r.context.getD .document)) ∧
          (ss.get ⟨i, hi2⟩).score =
            scoreFrom
              (sumEarned (processedScores (secs.get ⟨i, hi⟩).items
                (some (secs.get ⟨i, hi⟩).title) cfg.validation.enableResearchCitations))
              (sumMax (processedScores (secs.get ⟨i, hi⟩).items
                (some (secs.get ⟨i, hi⟩).title) cfg.validation.enableResearchCitations)) ∧
          (ss.get ⟨i, hi2⟩).score ≤ 100 ∧
          (ss.get ⟨i, hi2⟩).grade =
            (if 90 ≤ (ss.get ⟨i, hi2⟩).score then Grade.A
             else if 80 ≤ (ss.get ⟨i, hi2⟩).score then Grade.B
             else if 70 ≤ (ss.get ⟨i, hi2⟩).score then Grade.C
             else if 60 ≤ (ss.get ⟨i, hi2⟩).score then Grade.D
             else Grade.F) ∧
          (ss.get ⟨i, hi2⟩).issues =
            issuesOf (processedScores (secs.get ⟨i, hi⟩).items
              (some (secs.get ⟨i, hi⟩).title) cfg.validation.enableResearchCitations)) := by
  obtain ⟨v, hv, ha⟩ := analyze_ok_inv r cfg a h
  subst ha
  constructor
  · intro hns
    obtain ⟨its, hit, hvf⟩ := validateInput_no_sections r hns v hv
    subst hvf
    rfl
  · intro secs hs
    cases hit : r.items with
    | some its =>
      unfold validateInput at hv
      rw [hit, hs] at hv
      cases hv
    | none =>
      have hvs := validateInput_some_sectioned r secs hit hs v hv
      subst hvs
      refine ⟨secs.map (fun sec => sectionScoreOf sec (r.context.getD .document)
        cfg.validation.enableResearchCitations), rfl, by simp, ?_⟩
      intro i hi hi2
      have hget : (secs.map (fun sec => sectionScoreOf sec (r.context.getD .document)
          cfg.validation.enableResearchCitations)).get ⟨i, hi2⟩ =
          sectionScoreOf (secs.get ⟨i, hi⟩) (r.context.getD .document)
            cfg.validation.enableResearchCitations := by
        simp
      rw [hget]
      exact ⟨rfl, rfl, rfl, rfl, sectionScoreOf_score_le _ _ _, rfl, rfl⟩

/- ## Concrete witnesses -/

set_option maxRecDepth 10000 in
/-- Witness for C1 at the eight-item input, whose non-strict run warns. -/
theorem strict_mode_witness :
    ∃ a0 a1, analyze eightInput (mkConfig false true false) = .ok a0 ∧
      analyze eightInput (mkConfig true true false) = .ok a1 ∧
      a1.warnings = [] ∧ a1.overall_score = a0.overall_score ∧
      ∀ w ∈ a0.warnings, { w with severity := Severity.error } ∈ a1.errors :=
  strict_mode_promotes_without_changing_score eightInput true false (by decide)

set_option maxRecDepth 10000 in
/-- Witness for C2 at the two-section input. -/
theorem sectioned_mean_witness :
    (resultOf twoSectionInput defCfg).overall_score =
      roundDiv (((sectionScoresOf (resultOf twoSectionInput defCfg)).map (·.score)).sum)
        (sectionScoresOf (resultOf twoSectionInput defCfg)).length :=
  sectioned_overall_is_mean_of_section_scores twoSectionInput defCfg
    (resultOf twoSectionInput defCfg)
    (sectionScoresOf (resultOf twoSectionInput defCfg)) (by rfl) (by rfl)

set_option maxRecDepth 10000 in
/-- Witness for C3 at an input supplying both `items` and `sections`. -/
theorem malformed_witness :
    (∃ e, analyze bothInput defCfg = .error e) ∧
    (bothInput.items.isSome → bothInput.sections.isSome →
      analyze bothInput defCfg = .error "Cannot use both `items` and `sections`" ∧
      strContains "Cannot use both `items` and `sections`" "Cannot use both" = true) :=
  malformed_input_rejected_before_scoring bothInput defCfg (Or.inl (by decide))

set_option maxRecDepth 10000 in
/-- Witness for C4 at the three ideal items. -/
theorem overall_formula_witness :
    (resultOf idealInput defCfg).overall_score =
      min 100 (roundDiv (100 * sumEarned (resultOf idealInput defCfg).scores)
        (sumMax (resultOf idealInput defCfg).scores)) ∧
    (resultOf idealInput defCfg).grade =
      (if 90 ≤ (resultOf idealInput defCfg).overall_score then Grade.A
       else if 80 ≤ (resultOf idealInput defCfg).overall_score then Grade.B
       else if 70 ≤ (resultOf idealInput defCfg).overall_score then Grade.C
       else if 60 ≤ (resultOf idealInput defCfg).overall_score then Grade.D
       else Grade.F) :=
  overall_score_formula_and_grade_banding idealInput defCfg
    (resultOf idealInput defCfg) (by rfl)

/-- Witness for C5 at a three-item list. -/
theorem list_length_witness :
    (listLengthRule idealItems).issues = [] ∧
    (listLengthRule idealItems).earned_points = 20 :=
  (list_length_schedule idealItems).1 (by decide)

/-- Witness for C6 at a flat (depth-1) list. -/
theorem hierarchy_witness :
    (hierarchyRule idealItems).issues = [] ∧
    (hierarchyRule idealItems).earned_points = 15 :=
  (hierarchy_schedule idealItems).1 (by decide)

set_option maxRecDepth 10000 in
/-- Witness for C7 at a list whose first item is shorter than 40 characters. -/
theorem line_length_witness :
    ∃ iss ∈ (lineLengthRule shortFirstItems).issues,
      iss.item_index = some 0 ∧ iss.severity = .suggestion :=
  (line_length_per_item_and_cap shortFirstItems 0 (by decide)).1 (by decide)

/-- Witness for C8 at two items sharing their first two words up to case. -/
theorem first_words_witness :
    ∃ iss ∈ (firstWordsRule dupFirstItems).issues, iss.severity = .warning :=
  (first_words_case_insensitive dupFirstItems).1
    ⟨0, 1, by decide, by decide, by decide, by decide⟩

set_option maxRecDepth 10000 in
/-- Witness for C9 at the presentation-context input. -/
theorem context_fit_witness :
    (resultOf presInput defCfg).context_fit = .poor ∧
    ∃ fb, (resultOf presInput defCfg).context_feedback = some fb ∧
      strContains fb "visuals may be more persuasive" = true :=
  (context_fit_assessment presInput defCfg (resultOf presInput defCfg)
    (by rfl)).2.1 rfl

set_option maxRecDepth 10000 in
/-- Witness for C10 at the two-section input. -/
theorem section_scores_witness :
    ∃ ss, (resultOf twoSectionInput defCfg).section_scores = some ss ∧
      ss.length = twoSections.length ∧
      ∀ i (hi : i < twoSections.length) (hi2 : i < ss.length),
        (ss.get ⟨i, hi2⟩).title = (twoSections.get ⟨i, hi⟩).title ∧
        (ss.get ⟨i, hi2⟩).item_count = (twoSections.get ⟨i, hi⟩).items.length ∧
        (ss.get ⟨i, hi2⟩).context =
          ((twoSections.get ⟨i, hi⟩).context.getD
            (twoSectionInput.context.getD .document)) ∧
        (ss.get ⟨i, hi2⟩).score =
          scoreFrom
            (sumEarned (processedScores (twoSections.get ⟨i, hi⟩).items
              (some (twoSections.get ⟨i, hi⟩).title)
              defCfg.validation.enableResearchCitations))
            (sumMax (processedScores (twoSections.get ⟨i, hi⟩).items
              (some (twoSections.get ⟨i, hi⟩).title)
              defCfg.validation.enableResearchCitations)) ∧
        (ss.get ⟨i, hi2⟩).score ≤ 100 ∧
        (ss.get ⟨i, hi2⟩).grade =
          (if 90 ≤ (ss.get ⟨i, hi2⟩).score then Grade.A
           else if 80 ≤ (ss.get ⟨i, hi2⟩).score then Grade.B
           else if 70 ≤ (ss.get ⟨i, hi2⟩).score then Grade.C
           else if 60 ≤ (ss.get ⟨i, hi2⟩).score then Grade.D
           else Grade.F) ∧
        (ss.get ⟨i, hi2⟩).issues =
          issuesOf (processedScores (twoSections.get ⟨i, hi⟩).items
            (some (twoSections.get ⟨i, hi⟩).title)
            defCfg.validation.enableResearchCitations) :=
  (section_scores_presence twoSectionInput defCfg
    (resultOf twoSectionInput defCfg) (by rfl)).2 twoSections rfl
